import Mathlib

/-!
Verification of the query-construction and persistence core of the tolcan
ORM (a TypeScript ORM over PostgreSQL).

The embedding translates the source files of the repository into Lean:
the fluent query builder (src/core/query-builder.ts), the transaction
wrapper and helper (src/core/transaction.ts), and the record-mapper model
layer (src/core/model.ts).  JavaScript runtime values are modelled by the
inductive type JsVal (primitives and arrays; function-valued members,
which the source explicitly filters out, and nested plain objects are not
needed by any verified operation).  Database execution is external: it is
modelled as an oracle of type Db mapping an issued statement (SQL text
plus positional parameter list) to a result (rows plus optional affected
row count), exactly the contract of the pg driver used by the source.

Numeric rendering and the regular-expression placeholder renumbering of
update() are given fuel-indexed structural recursions (invoked with fuel
equal to the input size) so that every definition reduces by rfl.
-/

namespace Tolcan

/-- Model of the JavaScript runtime values stored in records and passed as
query parameters: null (also standing for undefined field values), booleans,
numbers (modelled as integers), strings, and arrays. -/
inductive JsVal where
  | null : JsVal
  | bool : Bool → JsVal
  | num : Int → JsVal
  | str : String → JsVal
  | arr : List JsVal → JsVal
deriving Repr

/-- JavaScript truthiness of a value: null/undefined, false, 0 and the empty
string are falsy; every other modelled value (including any array) is truthy. -/
def truthy : JsVal → Bool
  | .null => false
  | .bool b => b
  | .num n => !(n = 0)
  | .str s => !(s = "")
  | .arr _ => true

/-- Truthiness of an optional value; absence (undefined) is falsy. -/
def truthyOpt : Option JsVal → Bool
  | none => false
  | some v => truthy v

/-- A JavaScript object with string keys, in property insertion order,
as produced by Object.entries / iterated by for..in. -/
abbrev Obj := List (String × JsVal)

/-- Reading a property: the value at the first matching key, none when the
key is absent (undefined). -/
def objGet (o : Obj) (k : String) : Option JsVal :=
  (o.find? (fun p => p.1 = k)).map (fun p => p.2)

/-- Property assignment obj[k] = v: updates the value in place when the key
exists, otherwise appends the new key at the end (JS insertion order). -/
def objSet (o : Obj) (k : String) (v : JsVal) : Obj :=
  if (o.find? (fun p => p.1 = k)).isSome then
    o.map (fun p => if p.1 = k then (k, v) else p)
  else
    o ++ [(k, v)]

/-- Object.assign(target, src): assigns every property of src onto target,
in src property order. -/
def objAssign (o : Obj) (src : Obj) : Obj :=
  src.foldl (fun a p => objSet a p.1 p.2) o

/-- Rendering of one decimal digit (0-9) as a character. -/
def digitChar (d : Nat) : Char := Char.ofNat (48 + d)

/-- Decimal rendering of a natural number, fuel-indexed so the recursion is
structural; natToDigits supplies sufficient fuel. -/
def natToDigitsAux : Nat → Nat → List Char
  | 0, _ => []
  | fuel + 1, n =>
    if n < 10 then [digitChar n]
    else natToDigitsAux fuel (n / 10) ++ [digitChar (n % 10)]

/-- Decimal digit list of a natural number (most significant first). -/
def natToDigits (n : Nat) : List Char := natToDigitsAux (n + 1) n

/-- Decimal rendering of a natural number, as the JS template literal does. -/
def natToStr (n : Nat) : String := String.mk (natToDigits n)

/-- Decimal rendering of an integer (used for LIMIT/OFFSET counts, which the
source interpolates unvalidated, so they may be negative). -/
def intToStr (i : Int) : String :=
  if i < 0 then String.mk ('-' :: natToDigits i.natAbs) else natToStr i.toNat

/-- Array.prototype.join with the given separator. -/
def joinSep (sep : String) : List String → String
  | [] => ""
  | [s] => s
  | s :: ss => s ++ sep ++ joinSep sep ss

theorem natToDigitsAux_stable : ∀ (f g n : Nat), n < f → n < g →
    natToDigitsAux f n = natToDigitsAux g n := by
  intro f
  induction f with
  | zero => intro g n h; omega
  | succ f ih =>
    intro g n hf hg
    cases g with
    | zero => omega
    | succ g =>
      simp only [natToDigitsAux]
      split
      · rfl
      · rename_i h10
        rw [ih g (n / 10) (by omega) (by omega)]

theorem natToDigits_small {n : Nat} (h : n < 10) : natToDigits n = [digitChar n] := by
  cases n with
  | zero => rfl
  | succ m =>
    show natToDigitsAux (m + 1 + 1) (m + 1) = _
    rw [show natToDigitsAux (m + 1 + 1) (m + 1) =
        if (m + 1) < 10 then [digitChar (m + 1)]
        else natToDigitsAux (m + 1) ((m + 1) / 10) ++ [digitChar ((m + 1) % 10)] from rfl]
    rw [if_pos h]

theorem natToDigits_large {n : Nat} (h : 10 ≤ n) :
    natToDigits n = natToDigits (n / 10) ++ [digitChar (n % 10)] := by
  cases n with
  | zero => omega
  | succ m =>
    show natToDigitsAux (m + 1 + 1) (m + 1) = _
    rw [show natToDigitsAux (m + 1 + 1) (m + 1) =
        if (m + 1) < 10 then [digitChar (m + 1)]
        else natToDigitsAux (m + 1) ((m + 1) / 10) ++ [digitChar ((m + 1) % 10)] from rfl]
    rw [if_neg (by omega)]
    congr 1
    exact natToDigitsAux_stable (m + 1) ((m + 1) / 10 + 1) ((m + 1) / 10) (by omega) (by omega)

theorem natToDigits_ne_nil (n : Nat) : natToDigits n ≠ [] := by
  by_cases h : n < 10
  · rw [natToDigits_small h]; simp
  · rw [natToDigits_large (by omega)]; simp

theorem digitChar_isDigit {d : Nat} (h : d < 10) : (digitChar d).isDigit = true := by
  interval_cases d <;> decide

theorem digitChar_ne_dollar {d : Nat} (h : d < 10) : ¬ digitChar d = '$' := by
  interval_cases d <;> decide

theorem natToDigits_all_digits (n : Nat) : ∀ c ∈ natToDigits n, c.isDigit = true := by
  induction n using Nat.strong_induction_on with
  | _ n ih =>
    by_cases h : n < 10
    · rw [natToDigits_small h]
      intro c hc
      simp at hc
      subst hc
      exact digitChar_isDigit h
    · rw [natToDigits_large (by omega)]
      intro c hc
      simp at hc
      rcases hc with hc | hc
      · exact ih (n / 10) (Nat.div_lt_self (by omega) (by norm_num)) c hc
      · subst hc
        exact digitChar_isDigit (Nat.mod_lt _ (by norm_num))

theorem data_append (s t : String) : (s ++ t).data = s.data ++ t.data := by
  cases s; cases t; rfl

theorem dropWhile_length_le {α} (p : α → Bool) :
    ∀ l : List α, (l.dropWhile p).length ≤ l.length
  | [] => Nat.le_refl _
  | c :: cs => by
    rw [List.dropWhile_cons]
    split
    · exact Nat.le_succ_of_le (dropWhile_length_le p cs)
    · exact Nat.le_refl _

theorem takeWhile_append_all {α} (p : α → Bool) {xs : List α} (ys : List α)
    (h : ∀ x ∈ xs, p x = true) : (xs ++ ys).takeWhile p = xs ++ ys.takeWhile p := by
  induction xs with
  | nil => simp
  | cons x xs ih =>
    rw [List.cons_append, List.takeWhile_cons, if_pos (h x (by simp))]
    rw [ih (fun a ha => h a (by simp [ha]))]
    rfl

theorem dropWhile_append_all {α} (p : α → Bool) {xs : List α} (ys : List α)
    (h : ∀ x ∈ xs, p x = true) : (xs ++ ys).dropWhile p = ys.dropWhile p := by
  induction xs with
  | nil => simp
  | cons x xs ih =>
    rw [List.cons_append, List.dropWhile_cons, if_pos (h x (by simp))]
    exact ih (fun a ha => h a (by simp [ha]))

/-- The head of the list (when present) does not satisfy p; used to state that
a character sequence does not begin with a decimal digit. -/
def headNot {α} (p : α → Bool) (l : List α) : Prop :=
  ∀ c, l.head? = some c → p c = false

theorem headNot_nil {α} (p : α → Bool) : headNot p ([] : List α) := by
  intro c h; simp at h

theorem takeWhile_eq_nil_of_headNot {α} {p : α → Bool} {l : List α} (h : headNot p l) :
    l.takeWhile p = [] := by
  cases l with
  | nil => rfl
  | cons c cs =>
    rw [List.takeWhile_cons, if_neg]
    simp [h c rfl]

theorem dropWhile_eq_self_of_headNot {α} {p : α → Bool} {l : List α} (h : headNot p l) :
    l.dropWhile p = l := by
  cases l with
  | nil => rfl
  | cons c cs =>
    rw [List.dropWhile_cons, if_neg]
    simp [h c rfl]

theorem headNot_dropWhile {α} (p : α → Bool) (l : List α) : headNot p (l.dropWhile p) := by
  intro c h
  have := List.head?_dropWhile_not p l
  rw [h] at this
  exact this

/-- Occurrences of positional placeholders in a SQL fragment: the digit runs
following each dollar sign, left to right, exactly the matches of the JS
regular expression for a dollar sign followed by one or more digits.
Fuel-indexed so the recursion is structural; extractPh supplies the fuel. -/
def extractPhFuel : Nat → List Char → List String
  | 0, _ => []
  | _ + 1, [] => []
  | fuel + 1, c :: cs =>
    if c = '$' ∧ cs.takeWhile Char.isDigit ≠ [] then
      String.mk (cs.takeWhile Char.isDigit) :: extractPhFuel fuel (cs.dropWhile Char.isDigit)
    else extractPhFuel fuel cs

/-- Placeholder occurrences of a character list. -/
def extractPhL (l : List Char) : List String := extractPhFuel l.length l

/-- Placeholder occurrences of a SQL fragment string, as digit strings: for
example extractPh of the fragment a = $2 AND b IN ($3, $4) is the list of the
digit strings 2, 3, 4. -/
def extractPh (s : String) : List String := extractPhL s.data

theorem extractPhFuel_stable : ∀ (f g : Nat) (l : List Char), l.length ≤ f → l.length ≤ g →
    extractPhFuel f l = extractPhFuel g l := by
  intro f
  induction f with
  | zero =>
    intro g l hf _
    have : l = [] := List.length_eq_zero.mp (Nat.le_zero.mp hf)
    subst this
    cases g <;> rfl
  | succ f ih =>
    intro g l hf hg
    cases l with
    | nil => cases g <;> rfl
    | cons c cs =>
      cases g with
      | zero => simp at hg
      | succ g =>
        simp only [extractPhFuel]
        split
        · congr 1
          exact ih g (cs.dropWhile Char.isDigit)
            (Nat.le_trans (dropWhile_length_le _ _) (by simpa using hf))
            (Nat.le_trans (dropWhile_length_le _ _) (by simpa using hg))
        · exact ih g cs (by simpa using hf) (by simpa using hg)

theorem extractPhL_cons (c : Char) (cs : List Char) :
    extractPhL (c :: cs) =
      if c = '$' ∧ cs.takeWhile Char.isDigit ≠ [] then
        String.mk (cs.takeWhile Char.isDigit) :: extractPhL (cs.dropWhile Char.isDigit)
      else extractPhL cs := by
  show extractPhFuel (cs.length + 1) (c :: cs) = _
  simp only [extractPhFuel]
  split
  · congr 1
    exact extractPhFuel_stable cs.length (cs.dropWhile Char.isDigit).length
      (cs.dropWhile Char.isDigit) (dropWhile_length_le _ _) (Nat.le_refl _)
  · rfl

theorem extractPhL_nodollar_append (xs ys : List Char) (h : ∀ c ∈ xs, ¬ c = '$') :
    extractPhL (xs ++ ys) = extractPhL ys := by
  induction xs with
  | nil => rfl
  | cons x xs ih =>
    rw [List.cons_append, extractPhL_cons, if_neg]
    · exact ih (fun a ha => h a (by simp [ha]))
    · intro hand
      exact h x (by simp) hand.1

theorem extractPhL_nodollar (l : List Char) (h : ∀ c ∈ l, ¬ c = '$') :
    extractPhL l = [] := by
  have := extractPhL_nodollar_append l [] h
  simpa using this

theorem extractPhL_dollar_digits (ds ys : List Char) (hne : ds ≠ [])
    (hd : ∀ c ∈ ds, c.isDigit = true) (hy : headNot Char.isDigit ys) :
    extractPhL ('$' :: (ds ++ ys)) = String.mk ds :: extractPhL ys := by
  have htake : (ds ++ ys).takeWhile Char.isDigit = ds := by
    rw [takeWhile_append_all Char.isDigit ys hd, takeWhile_eq_nil_of_headNot hy, List.append_nil]
  have hdrop : (ds ++ ys).dropWhile Char.isDigit = ys := by
    rw [dropWhile_append_all Char.isDigit ys hd, dropWhile_eq_self_of_headNot hy]
  rw [extractPhL_cons, htake, hdrop, if_pos ⟨rfl, hne⟩]

/-- Renumbering pass of update(): replaces each placeholder occurrence (a
dollar sign followed by one or more digits, the JS regular expression) by a
fresh consecutive index starting at the given counter, returning the rewritten
characters and the counter after the pass.  Fuel-indexed so the recursion is
structural; renumber supplies the fuel. -/
def renumberFuel : Nat → Nat → List Char → List Char × Nat
  | 0, i, l => (l, i)
  | _ + 1, i, [] => ([], i)
  | fuel + 1, i, c :: cs =>
    if c = '$' ∧ cs.takeWhile Char.isDigit ≠ [] then
      let r := renumberFuel fuel (i + 1) (cs.dropWhile Char.isDigit)
      ('$' :: (natToDigits i ++ r.1), r.2)
    else
      let r := renumberFuel fuel i cs
      (c :: r.1, r.2)

/-- Renumbering of a character list with sufficient fuel. -/
def renumberL (i : Nat) (l : List Char) : List Char × Nat := renumberFuel l.length i l

/-- String-level renumbering: the translation of the regex replacement in
update(), applied to one WHERE condition fragment. -/
def renumber (i : Nat) (s : String) : String × Nat :=
  (String.mk (renumberL i s.data).1, (renumberL i s.data).2)

theorem renumberFuel_stable : ∀ (f g i : Nat) (l : List Char), l.length ≤ f → l.length ≤ g →
    renumberFuel f i l = renumberFuel g i l := by
  intro f
  induction f with
  | zero =>
    intro g i l hf _
    have : l = [] := List.length_eq_zero.mp (Nat.le_zero.mp hf)
    subst this
    cases g <;> rfl
  | succ f ih =>
    intro g i l hf hg
    cases l with
    | nil => cases g <;> rfl
    | cons c cs =>
      cases g with
      | zero => simp at hg
      | succ g =>
        simp only [renumberFuel]
        split
        · rw [ih g (i + 1) (cs.dropWhile Char.isDigit)
            (Nat.le_trans (dropWhile_length_le _ _) (by simpa using hf))
            (Nat.le_trans (dropWhile_length_le _ _) (by simpa using hg))]
        · rw [ih g i cs (by simpa using hf) (by simpa using hg)]

theorem renumberL_cons (i : Nat) (c : Char) (cs : List Char) :
    renumberL i (c :: cs) =
      if c = '$' ∧ cs.takeWhile Char.isDigit ≠ [] then
        ('$' :: (natToDigits i ++ (renumberL (i + 1) (cs.dropWhile Char.isDigit)).1),
         (renumberL (i + 1) (cs.dropWhile Char.isDigit)).2)
      else
        (c :: (renumberL i cs).1, (renumberL i cs).2) := by
  show renumberFuel (cs.length + 1) i (c :: cs) = _
  simp only [renumberFuel]
  split
  · rw [renumberFuel_stable cs.length (cs.dropWhile Char.isDigit).length (i + 1)
      (cs.dropWhile Char.isDigit) (dropWhile_length_le _ _) (Nat.le_refl _)]
    rfl
  · rfl

theorem renumberL_headNot (i : Nat) (l : List Char) (h : headNot Char.isDigit l) :
    headNot Char.isDigit (renumberL i l).1 := by
  cases l with
  | nil => exact headNot_nil _
  | cons c cs =>
    rw [renumberL_cons]
    split
    · intro a ha
      simp at ha
      rw [← ha]
      decide
    · intro a ha
      simp at ha
      rw [← ha]
      exact h c rfl

theorem renumberL_spec : ∀ (n : Nat) (l : List Char), l.length ≤ n → ∀ i,
    extractPhL (renumberL i l).1 =
      (List.range' i (extractPhL l).length).map natToStr ∧
    (renumberL i l).2 = i + (extractPhL l).length := by
  intro n
  induction n with
  | zero =>
    intro l hl i
    have : l = [] := List.length_eq_zero.mp (Nat.le_zero.mp hl)
    subst this
    exact ⟨rfl, rfl⟩
  | succ n ih =>
    intro l hl i
    cases l with
    | nil => exact ⟨rfl, rfl⟩
    | cons c cs =>
      rw [renumberL_cons, extractPhL_cons]
      by_cases hcond : c = '$' ∧ cs.takeWhile Char.isDigit ≠ []
      · rw [if_pos hcond, if_pos hcond]
        have hrest : (cs.dropWhile Char.isDigit).length ≤ n :=
          Nat.le_trans (dropWhile_length_le _ _) (by simpa using hl)
        obtain ⟨ih1, ih2⟩ := ih (cs.dropWhile Char.isDigit) hrest (i + 1)
        constructor
        · rw [extractPhL_dollar_digits (natToDigits i)
            (renumberL (i + 1) (cs.dropWhile Char.isDigit)).1
            (natToDigits_ne_nil i) (natToDigits_all_digits i)
            (renumberL_headNot (i + 1) (cs.dropWhile Char.isDigit)
              (headNot_dropWhile Char.isDigit cs))]
          rw [ih1]
          simp only [List.length_cons]
          rw [show List.range' i ((extractPhL (cs.dropWhile Char.isDigit)).length + 1) =
              i :: List.range' (i + 1) (extractPhL (cs.dropWhile Char.isDigit)).length by
            simpa using List.range'_succ i (extractPhL (cs.dropWhile Char.isDigit)).length 1]
          rfl
        · rw [ih2]
          simp only [List.length_cons]
          omega
      · rw [if_neg hcond, if_neg hcond]
        have hccs : cs.length ≤ n := by simpa using hl
        obtain ⟨ih1, ih2⟩ := ih cs hccs i
        refine ⟨?_, ih2⟩
        rw [← ih1]
        by_cases hc : c = '$'
        · subst hc
          have htw : cs.takeWhile Char.isDigit = [] := by
            by_contra hne
            exact hcond ⟨rfl, hne⟩
          have hcs : headNot Char.isDigit cs := by
            intro a ha
            cases cs with
            | nil => simp at ha
            | cons b bs =>
              simp at ha
              subst ha
              rw [List.takeWhile_cons] at htw
              by_contra hdig
              rw [if_pos (by simpa using hdig)] at htw
              simp at htw
          have hout : headNot Char.isDigit (renumberL i cs).1 := renumberL_headNot i cs hcs
          rw [extractPhL_cons, if_neg]
          intro hand
          exact hand.2 (takeWhile_eq_nil_of_headNot hout)
        · rw [extractPhL_cons, if_neg]
          intro hand
          exact hc hand.1

/-- Primary-key generation strategy of a table (src/core/types.ts). -/
inductive PrimaryKeyType where
  | serial : PrimaryKeyType
  | uuid : PrimaryKeyType
deriving Repr, DecidableEq

/-- A statement issued to the connection provider: rendered SQL text plus the
positional parameter list. -/
structure Stmt where
  sql : String
  params : List JsVal
deriving Repr

/-- A result row, a field-name to value map. -/
abbrev Row := Obj

/-- Result shape returned by the pg driver: rows and an optional affected-row
count (null for some statement kinds). -/
structure QueryResult where
  rows : List Row
  rowCount : Option Nat
deriving Repr

/-- The external database collaborator, modelled as an oracle from the issued
statement to its result. -/
abbrev Db := Stmt → QueryResult

/-- Translation of the placeholder-generating array map in where(): for an
array value of length len it emits len placeholders with consecutive counter
values starting at i (the JS post-increment inside the map callback). -/
def phSeq (i : Nat) : Nat → List String
  | 0 => []
  | len + 1 => ("$" ++ natToStr i) :: phSeq (i + 1) len

/-- State of the fluent query builder (src/core/query-builder.ts). -/
structure QueryBuilder where
  tableName : String
  whereConditions : List String
  whereParams : List JsVal
  orderByClause : String
  limitClause : String
  offsetClause : String
  paramCounter : Nat
  primaryKeyType : PrimaryKeyType
  primaryKey : String
deriving Repr

/-- The builder constructor: empty accumulated state, parameter counter 1. -/
def QueryBuilder.new (tableName : String) (pkType : PrimaryKeyType) (pk : String) :
    QueryBuilder :=
  ⟨tableName, [], [], "", "", "", 1, pkType, pk⟩

/-- One key/value pair of an object condition handed to where(): a null (or
undefined) value renders an IS NULL condition with no parameter, an array value
renders an IN condition with one placeholder per element and appends the
elements, and any other value renders an equality condition with a single
placeholder and appends the value. -/
def QueryBuilder.whereEntry (qb : QueryBuilder) (key : String) (v : JsVal) : QueryBuilder :=
  match v with
  | .null =>
      { qb with whereConditions := qb.whereConditions ++ [key ++ " IS NULL"] }
  | .arr vs =>
      { qb with
        whereConditions := qb.whereConditions ++
          [key ++ " IN (" ++ joinSep ", " (phSeq qb.paramCounter vs.length) ++ ")"],
        whereParams := qb.whereParams ++ vs,
        paramCounter := qb.paramCounter + vs.length }
  | v =>
      { qb with
        whereConditions := qb.whereConditions ++
          [key ++ " = $" ++ natToStr qb.paramCounter],
        whereParams := qb.whereParams ++ [v],
        paramCounter := qb.paramCounter + 1 }

/-- where() with an object condition: iterates Object.entries in property
order. -/
def QueryBuilder.whereMap (qb : QueryBuilder) (cond : Obj) : QueryBuilder :=
  cond.foldl (fun b p => b.whereEntry p.1 p.2) qb

/-- where() with a raw SQL string and an optional value: the string is pushed
verbatim as one condition; the value, when not undefined, is appended to the
parameter list.  The parameter counter is not advanced. -/
def QueryBuilder.whereRaw (qb : QueryBuilder) (condition : String) (value : Option JsVal) :
    QueryBuilder :=
  { qb with
    whereConditions := qb.whereConditions ++ [condition],
    whereParams := qb.whereParams ++ (match value with | some v => [v] | none => []) }

/-- orderBy(column, direction) with the direction defaulting to ASC when the
argument is omitted (undefined). -/
def QueryBuilder.orderBy (qb : QueryBuilder) (column : String) (direction : Option String) :
    QueryBuilder :=
  { qb with orderByClause := "ORDER BY " ++ column ++ " " ++ direction.getD "ASC" }

/-- Rendering of one multi-column ordering entry; an absent or empty direction
falls back to ASC (JS or-else on the direction field). -/
def orderPart (p : String × Option String) : String :=
  p.1 ++ " " ++ (match p.2 with
    | some d => if d = "" then "ASC" else d
    | none => "ASC")

/-- orderByMultiple(orders). -/
def QueryBuilder.orderByMultiple (qb : QueryBuilder) (orders : List (String × Option String)) :
    QueryBuilder :=
  { qb with orderByClause := "ORDER BY " ++ joinSep ", " (orders.map orderPart) }

/-- limit(count); the count is interpolated without validation. -/
def QueryBuilder.limit (qb : QueryBuilder) (count : Int) : QueryBuilder :=
  { qb with limitClause := "LIMIT " ++ intToStr count }

/-- offset(count); the count is interpolated without validation. -/
def QueryBuilder.offset (qb : QueryBuilder) (count : Int) : QueryBuilder :=
  { qb with offsetClause := "OFFSET " ++ intToStr count }

/-- buildWhereClause(): empty when no condition has accumulated, otherwise the
conditions joined with AND, in insertion order. -/
def QueryBuilder.buildWhereClause (qb : QueryBuilder) : String :=
  if qb.whereConditions = [] then ""
  else "WHERE " ++ joinSep " AND " qb.whereConditions

/-- Rendered SQL of select(columns): base query plus each optional clause when
its accumulated text is non-empty (JS string truthiness). -/
def QueryBuilder.selectSql (qb : QueryBuilder) (columns : List String) : String :=
  let q1 := "SELECT " ++ joinSep ", " columns ++ " FROM " ++ qb.tableName
  let q2 := if qb.buildWhereClause = "" then q1 else q1 ++ " " ++ qb.buildWhereClause
  let q3 := if qb.orderByClause = "" then q2 else q2 ++ " " ++ qb.orderByClause
  let q4 := if qb.limitClause = "" then q3 else q3 ++ " " ++ qb.limitClause
  if qb.offsetClause = "" then q4 else q4 ++ " " ++ qb.offsetClause

/-- The statement issued by select(columns): the rendered SQL with the
accumulated WHERE parameters. -/
def QueryBuilder.selectStmt (qb : QueryBuilder) (columns : List String) : Stmt :=
  ⟨qb.selectSql columns, qb.whereParams⟩

/-- select(columns) against the database oracle, returning the raw rows. -/
def QueryBuilder.select (qb : QueryBuilder) (columns : List String) (db : Db) : List Row :=
  (db (qb.selectStmt columns)).rows

/-- The column/value set actually inserted by insert(data): when the builder
uses the uuid strategy and the primary-key property of data is falsy (absent,
null, empty string, zero or false), the generated identifier is injected under
the primary-key name; otherwise data is used unchanged. -/
def QueryBuilder.insertData (qb : QueryBuilder) (data : Obj) (uuid : String) : Obj :=
  if qb.primaryKeyType = PrimaryKeyType.uuid ∧ truthyOpt (objGet data qb.primaryKey) = false
  then objSet data qb.primaryKey (.str uuid)
  else data

/-- The statement issued by insert(data): INSERT with one placeholder per
column in property order and RETURNING *; whitespace normalized to single
spaces relative to the source template literal. -/
def QueryBuilder.insertStmt (qb : QueryBuilder) (data : Obj) (uuid : String) : Stmt :=
  let d := qb.insertData data uuid
  let columns := d.map Prod.fst
  let values := d.map Prod.snd
  ⟨"INSERT INTO " ++ qb.tableName ++ " (" ++ joinSep ", " columns ++ ") VALUES (" ++
    joinSep ", " (phSeq 1 values.length) ++ ") RETURNING *", values⟩

/-- insert(data) against the database oracle: returns the first returned row
(undefined, none, when the driver returns no row). -/
def QueryBuilder.insert (qb : QueryBuilder) (data : Obj) (uuid : String) (db : Db) :
    Option Row :=
  (db (qb.insertStmt data uuid)).rows.head?

/-- Translation of the SET clause map in update(): the column at 0-based
position i renders with placeholder index i+1; invoked with counter 1. -/
def setParts (i : Nat) : List String → List String
  | [] => []
  | c :: cs => (c ++ " = $" ++ natToStr i) :: setParts (i + 1) cs

/-- The renumbering loop of update() over the accumulated WHERE conditions:
each condition containing a dollar sign has every placeholder replaced by the
next consecutive index (starting after the SET values); other conditions pass
through unchanged.  Returns the rewritten conditions and the final index. -/
def updateWhereCondsAux (idx : Nat) : List String → List String × Nat
  | [] => ([], idx)
  | cond :: conds =>
    if cond.data.contains '$' then
      let r := renumber idx cond
      let rest := updateWhereCondsAux r.2 conds
      (r.1 :: rest.1, rest.2)
    else
      let rest := updateWhereCondsAux idx conds
      (cond :: rest.1, rest.2)

/-- The statement issued by update(data): SET placeholders numbered 1..N in
column order, renumbered WHERE conditions appended when any exist, and the
parameter list values-then-WHERE-parameters. -/
def QueryBuilder.updateStmt (qb : QueryBuilder) (data : Obj) : Stmt :=
  let columns := data.map Prod.fst
  let values := data.map Prod.snd
  let whereConds := (updateWhereCondsAux (values.length + 1) qb.whereConditions).1
  let setClause := joinSep ", " (setParts 1 columns)
  let whereClause := if whereConds = [] then "" else "WHERE " ++ joinSep " AND " whereConds
  let q1 := "UPDATE " ++ qb.tableName ++ " SET " ++ setClause
  ⟨if whereClause = "" then q1 else q1 ++ " " ++ whereClause, values ++ qb.whereParams⟩

/-- update(data) against the database oracle: returns the driver rows (the
rendered statement carries no RETURNING clause, so a SQL database returns no
rows here; the oracle keeps the row list abstract). -/
def QueryBuilder.update (qb : QueryBuilder) (data : Obj) (db : Db) : List Row :=
  (db (qb.updateStmt data)).rows

/-- The statement issued by delete(). -/
def QueryBuilder.deleteStmt (qb : QueryBuilder) : Stmt :=
  ⟨"DELETE FROM " ++ qb.tableName ++ " " ++ qb.buildWhereClause, qb.whereParams⟩

/-- delete() against the database oracle: throws the builder-level safety
error when no WHERE clause has accumulated, otherwise executes and returns the
affected-row count (0 when the driver reports null). -/
def QueryBuilder.delete (qb : QueryBuilder) (db : Db) : Except String Nat :=
  if qb.buildWhereClause = "" then
    .error "Delete operation requires a WHERE clause for safety"
  else
    .ok ((db qb.deleteStmt).rowCount.getD 0)

/-- The statement issued by count(). -/
def QueryBuilder.countStmt (qb : QueryBuilder) : Stmt :=
  ⟨"SELECT COUNT(*) as count FROM " ++ qb.tableName ++ " " ++ qb.buildWhereClause,
   qb.whereParams⟩

/-- first(): limit(1) followed by select() with the default column list,
returning the first row or none. -/
def QueryBuilder.first (qb : QueryBuilder) (db : Db) : Option Row :=
  ((qb.limit 1).select ["*"] db).head?

/-- Connection-lifecycle events observable at the connection provider:
acquiring a pinned connection, running a statement on it, releasing it. -/
inductive Ev where
  | acquire : Ev
  | query : String → Ev
  | release : Ev
deriving Repr, DecidableEq

/-- State of a Transaction wrapper (src/core/transaction.ts): the two
completion flags guarding the one-shot terminal transitions. -/
structure Transaction where
  committed : Bool
  rolledBack : Bool
deriving Repr, DecidableEq

/-- A freshly constructed Transaction: neither committed nor rolled back. -/
def Transaction.new : Transaction := ⟨false, false⟩

/-- begin(): issues BEGIN on the pinned connection; no state change. -/
def Transaction.begin (t : Transaction) : Transaction × List Ev :=
  (t, [Ev.query "BEGIN"])

/-- commit(): fails when already committed or already rolled back; otherwise
issues COMMIT, marks committed, and releases the pinned connection. -/
def Transaction.commit (t : Transaction) : Except String (Transaction × List Ev) :=
  if t.committed then .error "Transaction already committed"
  else if t.rolledBack then .error "Transaction already rolled back"
  else .ok ({ t with committed := true }, [Ev.query "COMMIT", Ev.release])

/-- rollback(): fails when already committed; silently succeeds without any
event when already rolled back; otherwise issues ROLLBACK, marks rolled back,
and releases the pinned connection. -/
def Transaction.rollback (t : Transaction) : Except String (Transaction × List Ev) :=
  if t.committed then .error "Transaction already committed"
  else if t.rolledBack then .ok (t, [])
  else .ok ({ t with rolledBack := true }, [Ev.query "ROLLBACK", Ev.release])

/-- The transactional helper function transaction(callback): acquires a
connection, begins, runs the unit of work, commits on normal return, and rolls
back and re-raises on failure.  The unit of work is modelled by its outcome
and by the SQL statements it issues on the pinned connection (it does not
itself terminate the transaction).  Returns the helper outcome and the full
event trace on the pinned connection. -/
def transaction {α : Type} (cbOutcome : Except String α) (cbQueries : List String) :
    Except String α × List Ev :=
  let t0 : Transaction := Transaction.new
  let pre := (Ev.acquire :: (t0.begin).2) ++ cbQueries.map Ev.query
  match cbOutcome with
  | .ok a =>
    match t0.commit with
    | .ok r => (.ok a, pre ++ r.2)
    | .error e =>
      match t0.rollback with
      | .ok r => (.error e, pre ++ r.2)
      | .error e2 => (.error e2, pre)
  | .error e =>
    match t0.rollback with
    | .ok r => (.error e, pre ++ r.2)
    | .error e2 => (.error e2, pre)

/-- Per-type table metadata of the model layer (src/core/model.ts): table
name, primary-key column, primary-key strategy. -/
structure ModelClass where
  tableName : String
  primaryKey : String
  primaryKeyType : PrimaryKeyType
deriving Repr

/-- Model.query(): a fresh builder carrying the table metadata. -/
def ModelClass.query (m : ModelClass) : QueryBuilder :=
  QueryBuilder.new m.tableName m.primaryKeyType m.primaryKey

/-- Materialization of a result row as a record instance:
Object.assign(new this(), row) on a fresh, empty instance. -/
def materialize (r : Row) : Row := objAssign [] r

/-- Static Model.update(data, options): fails before touching the database
when options.where is absent (undefined); otherwise applies the condition map
to a fresh builder, issues the update, and materializes the returned rows.
The second component is the list of statements issued. -/
def ModelClass.update (m : ModelClass) (data : Obj) (whereOpt : Option Obj) (db : Db) :
    Except String (List Row) × List Stmt :=
  match whereOpt with
  | none => (.error "Update requires a WHERE clause", [])
  | some w =>
      let b := (m.query).whereMap w
      (.ok (((db (b.updateStmt data)).rows).map materialize), [b.updateStmt data])

/-- Static Model.delete(options): fails before touching the database when
options.where is absent; otherwise applies the condition map and delegates to
the builder delete() (whose own gate may still fail).  The second component is
the list of statements issued. -/
def ModelClass.delete (m : ModelClass) (whereOpt : Option Obj) (db : Db) :
    Except String Nat × List Stmt :=
  match whereOpt with
  | none => (.error "Delete requires a WHERE clause", [])
  | some w =>
      let b := (m.query).whereMap w
      match b.delete db with
      | .error e => (.error e, [])
      | .ok n => (.ok n, [b.deleteStmt])

/-- Static Model.create(data, options): delegates to builder insert (where the
uuid injection happens) and materializes the returned row (an absent row
leaves the fresh instance empty). -/
def ModelClass.create (m : ModelClass) (data : Obj) (uuid : String) (db : Db) : Row :=
  match (db (m.query.insertStmt data uuid)).rows.head? with
  | none => []
  | some r => materialize r

/-- The orderBy argument of findAll: a single (column, direction) pair or an
array of them. -/
inductive OrderBySpec where
  | single : String → Option String → OrderBySpec
  | multiple : List (String × Option String) → OrderBySpec

/-- The findAll options object; every field optional. -/
structure SelectOptions where
  whereOpt : Option Obj
  orderByOpt : Option OrderBySpec
  limitOpt : Option Int
  offsetOpt : Option Int

/-- The builder assembled by Model.findAll(options) before executing select():
each option is applied only when truthy, so a limit or offset of 0 is
discarded (JS number truthiness), while where/orderBy objects are always
truthy when present. -/
def ModelClass.findAllBuilder (m : ModelClass) (options : SelectOptions) : QueryBuilder :=
  let b0 := m.query
  let b1 := match options.whereOpt with
    | some w => b0.whereMap w
    | none => b0
  let b2 := match options.orderByOpt with
    | some (.single c d) => b1.orderBy c d
    | some (.multiple os) => b1.orderByMultiple os
    | none => b1
  let b3 := match options.limitOpt with
    | some n => if truthy (.num n) then b2.limit n else b2
    | none => b2
  match options.offsetOpt with
  | some n => if truthy (.num n) then b3.offset n else b3
  | none => b3

/-- Model.findAll(options): executes select() on the assembled builder and
materializes every row. -/
def ModelClass.findAll (m : ModelClass) (options : SelectOptions) (db : Db) : List Row :=
  ((m.findAllBuilder options).select ["*"] db).map materialize

/-- Instance save(): collects every own data field except the primary-key
field, then dispatches on the truthiness of the primary-key field: update
keyed on it when truthy (copying the first returned row back when any), insert
otherwise (copying the returned row back onto the instance).  Returns the
resulting instance and the statements issued. -/
def ModelClass.save (m : ModelClass) (inst : Row) (uuid : String) (db : Db) :
    Row × List Stmt :=
  let pk := m.primaryKey
  let data := inst.filter (fun p => ¬ p.1 = pk)
  if truthyOpt (objGet inst pk) then
    let pkVal := (objGet inst pk).getD JsVal.null
    let b := (m.query).whereMap [(pk, pkVal)]
    let rows := b.update data db
    (match rows with
     | [] => inst
     | r :: _ => objAssign inst r, [b.updateStmt data])
  else
    let b := m.query
    let rows := (db (b.insertStmt data uuid)).rows
    (match rows.head? with
     | none => inst
     | some r => objAssign inst r, [b.insertStmt data uuid])

/-- Parameter contribution of one where() entry (spec side): a null value
appends no parameter, an array appends its elements in order, a scalar appends
itself. -/
def entryValues : JsVal → List JsVal
  | .null => []
  | .arr vs => vs
  | v => [v]

/-- Spec-side parameter list of an object condition list: the concatenated
entry contributions, in entry order. -/
def expectedParams : Obj → List JsVal
  | [] => []
  | e :: es => entryValues e.2 ++ expectedParams es

/-- Spec-side rendering of an object condition list in which the placeholder
index of every appended value equals that value's eventual position in the
parameter list: the counter starts at n and advances exactly by the number of
values each entry appends. -/
def expectedConds (n : Nat) : Obj → List String
  | [] => []
  | (k, JsVal.null) :: es => (k ++ " IS NULL") :: expectedConds n es
  | (k, JsVal.arr vs) :: es =>
      (k ++ " IN (" ++ joinSep ", " (phSeq n vs.length) ++ ")") ::
        expectedConds (n + vs.length) es
  | (k, _) :: es => (k ++ " = $" ++ natToStr n) :: expectedConds (n + 1) es

theorem expectedConds_length (es : Obj) : ∀ n : Nat, (expectedConds n es).length = es.length := by
  induction es with
  | nil => intro n; rfl
  | cons e es ih =>
    intro n
    obtain ⟨k, v⟩ := e
    cases v <;> simp [expectedConds, ih]

theorem whereMap_eq : ∀ (es : Obj) (qb : QueryBuilder),
    qb.whereMap es =
      { qb with
        whereConditions := qb.whereConditions ++ expectedConds qb.paramCounter es,
        whereParams := qb.whereParams ++ expectedParams es,
        paramCounter := qb.paramCounter + (expectedParams es).length } := by
  intro es
  induction es with
  | nil =>
    intro qb
    cases qb
    simp [QueryBuilder.whereMap, expectedConds, expectedParams]
  | cons e es ih =>
    intro qb
    obtain ⟨k, v⟩ := e
    have step : qb.whereMap ((k, v) :: es) = (qb.whereEntry k v).whereMap es := rfl
    rw [step, ih]
    cases v
    all_goals
      cases qb
      simp [QueryBuilder.whereEntry, expectedConds, expectedParams, entryValues,
        List.append_assoc, List.length_append, Nat.add_assoc]
      try omega

theorem range'_append' (s m n : Nat) :
    List.range' s m ++ List.range' (s + m) n = List.range' s (m + n) := by
  rw [Nat.add_comm m n]
  simp

theorem extractPhL_singleton_nodollar (c : Char) (h : ¬ c = '$') : extractPhL [c] = [] := by
  apply extractPhL_nodollar
  intro a ha
  simp at ha
  subst ha
  exact h

theorem extractPh_cond_eq (k : String) (i : Nat) (hk : ∀ c ∈ k.data, ¬ c = '$') :
    extractPh (k ++ " = $" ++ natToStr i) = [natToStr i] := by
  show extractPhL (k ++ " = $" ++ natToStr i).data = _
  rw [data_append, data_append]
  have h1 : k.data ++ " = $".data ++ (natToStr i).data
      = k.data ++ ([' ', '=', ' '] ++ ('$' :: (natToDigits i ++ []))) := by
    simp [natToStr]
  rw [h1, extractPhL_nodollar_append k.data _ hk,
    extractPhL_nodollar_append [' ', '=', ' '] _ (by decide),
    extractPhL_dollar_digits (natToDigits i) [] (natToDigits_ne_nil i)
      (natToDigits_all_digits i) (headNot_nil _)]
  rfl

theorem extractPh_cond_isnull (k : String) (hk : ∀ c ∈ k.data, ¬ c = '$') :
    extractPh (k ++ " IS NULL") = [] := by
  show extractPhL (k ++ " IS NULL").data = _
  rw [data_append, extractPhL_nodollar_append k.data _ hk]
  decide

theorem phSeq_join_extract : ∀ (L i : Nat) (ys : List Char), headNot Char.isDigit ys →
    extractPhL ((joinSep ", " (phSeq i L)).data ++ ys)
      = (List.range' i L).map natToStr ++ extractPhL ys := by
  intro L
  induction L with
  | zero =>
    intro i ys _
    rfl
  | succ L ih =>
    intro i ys hy
    cases L with
    | zero =>
      have hj : joinSep ", " (phSeq i 1) = "$" ++ natToStr i := rfl
      rw [hj, data_append]
      have h1 : "$".data ++ (natToStr i).data ++ ys = '$' :: (natToDigits i ++ ys) := by
        simp [natToStr]
      rw [h1, extractPhL_dollar_digits (natToDigits i) ys (natToDigits_ne_nil i)
        (natToDigits_all_digits i) hy]
      rfl
    | succ M =>
      have hj : joinSep ", " (phSeq i (M + 2))
          = ("$" ++ natToStr i) ++ ", " ++ joinSep ", " (phSeq (i + 1) (M + 1)) := rfl
      rw [hj, data_append, data_append, data_append]
      have h1 : "$".data ++ (natToStr i).data ++ ", ".data
            ++ (joinSep ", " (phSeq (i + 1) (M + 1))).data ++ ys
          = '$' :: (natToDigits i ++
              (',' :: ' ' :: ((joinSep ", " (phSeq (i + 1) (M + 1))).data ++ ys))) := by
        simp [natToStr]
      rw [h1, extractPhL_dollar_digits (natToDigits i) _ (natToDigits_ne_nil i)
        (natToDigits_all_digits i) (by intro c hc; simp at hc; rw [← hc]; decide)]
      rw [show (',' :: ' ' :: ((joinSep ", " (phSeq (i + 1) (M + 1))).data ++ ys))
          = [',', ' '] ++ ((joinSep ", " (phSeq (i + 1) (M + 1))).data ++ ys) from rfl]
      rw [extractPhL_nodollar_append [',', ' '] _ (by decide)]
      rw [ih (i + 1) ys hy]
      rfl

theorem extractPh_cond_in (k : String) (i L : Nat) (hk : ∀ c ∈ k.data, ¬ c = '$') :
    extractPh (k ++ " IN (" ++ joinSep ", " (phSeq i L) ++ ")")
      = (List.range' i L).map natToStr := by
  show extractPhL (k ++ " IN (" ++ joinSep ", " (phSeq i L) ++ ")").data = _
  rw [data_append, data_append, data_append]
  have h1 : k.data ++ " IN (".data ++ (joinSep ", " (phSeq i L)).data ++ ")".data
      = k.data ++ ([' ', 'I', 'N', ' ', '('] ++ ((joinSep ", " (phSeq i L)).data ++ [')'])) := by
    simp
  rw [h1, extractPhL_nodollar_append k.data _ hk,
    extractPhL_nodollar_append [' ', 'I', 'N', ' ', '('] _ (by decide),
    phSeq_join_extract L i [')'] (by intro c hc; simp at hc; rw [← hc]; decide),
    extractPhL_singleton_nodollar ')' (by decide), List.append_nil]

/-- Concatenated placeholder occurrences of a list of rendered conditions,
left to right. -/
def condsPh : List String → List String
  | [] => []
  | c :: cs => extractPh c ++ condsPh cs

theorem expectedConds_ph : ∀ (es : Obj) (i : Nat),
    (∀ p ∈ es, ∀ c ∈ p.1.data, ¬ c = '$') →
    condsPh (expectedConds i es)
      = (List.range' i (expectedParams es).length).map natToStr := by
  intro es
  induction es with
  | nil => intro i _; rfl
  | cons e es ih =>
    intro i hk
    obtain ⟨k, v⟩ := e
    have hkk : ∀ c ∈ k.data, ¬ c = '$' := hk (k, v) (by simp)
    have hrest : ∀ p ∈ es, ∀ c ∈ p.1.data, ¬ c = '$' :=
      fun p hp => hk p (by simp [hp])
    cases v with
    | null =>
      show extractPh (k ++ " IS NULL") ++ condsPh (expectedConds i es) = _
      rw [extractPh_cond_isnull k hkk, ih i hrest]
      rfl
    | arr vs =>
      show extractPh (k ++ " IN (" ++ joinSep ", " (phSeq i vs.length) ++ ")")
          ++ condsPh (expectedConds (i + vs.length) es) = _
      rw [extractPh_cond_in k i vs.length hkk, ih (i + vs.length) hrest,
        ← List.map_append, range'_append']
      show _ = (List.range' i (vs ++ expectedParams es).length).map natToStr
      rw [List.length_append]
    | bool b =>
      show extractPh (k ++ " = $" ++ natToStr i) ++ condsPh (expectedConds (i + 1) es) = _
      rw [extractPh_cond_eq k i hkk, ih (i + 1) hrest]
      have : (expectedParams ((k, JsVal.bool b) :: es)).length
          = (expectedParams es).length + 1 := by
        simp [expectedParams, entryValues]
      rw [this]
      rw [show List.range' i ((expectedParams es).length + 1)
          = i :: List.range' (i + 1) (expectedParams es).length from rfl]
      rfl
    | num n =>
      show extractPh (k ++ " = $" ++ natToStr i) ++ condsPh (expectedConds (i + 1) es) = _
      rw [extractPh_cond_eq k i hkk, ih (i + 1) hrest]
      have : (expectedParams ((k, JsVal.num n) :: es)).length
          = (expectedParams es).length + 1 := by
        simp [expectedParams, entryValues]
      rw [this]
      rw [show List.range' i ((expectedParams es).length + 1)
          = i :: List.range' (i + 1) (expectedParams es).length from rfl]
      rfl
    | str s =>
      show extractPh (k ++ " = $" ++ natToStr i) ++ condsPh (expectedConds (i + 1) es) = _
      rw [extractPh_cond_eq k i hkk, ih (i + 1) hrest]
      have : (expectedParams ((k, JsVal.str s) :: es)).length
          = (expectedParams es).length + 1 := by
        simp [expectedParams, entryValues]
      rw [this]
      rw [show List.range' i ((expectedParams es).length + 1)
          = i :: List.range' (i + 1) (expectedParams es).length from rfl]
      rfl

theorem whereMap_append (qb : QueryBuilder) (es₁ es₂ : Obj) :
    qb.whereMap (es₁ ++ es₂) = (qb.whereMap es₁).whereMap es₂ :=
  List.foldl_append _ _ _ _

theorem foldl_whereMap_join : ∀ (calls : List Obj) (qb : QueryBuilder),
    calls.foldl QueryBuilder.whereMap qb = qb.whereMap calls.flatten := by
  intro calls
  induction calls with
  | nil => intro qb; rfl
  | cons c cs ih =>
    intro qb
    show cs.foldl QueryBuilder.whereMap (qb.whereMap c) = _
    rw [ih (qb.whereMap c), ← whereMap_append]
    rfl

/-- C1 counterexample: on a fresh builder, a raw where() fragment that
appends a value ($1 with value 10) followed by an object condition produces
the conditions x > $1 and a = $1 with parameter list [10, 7].  The value 7 of
the object condition sits at parameter position 2, but its rendered
placeholder is $1, not $2: the raw fragment appended a value without
advancing the placeholder counter, so the rendered placeholder numbers and
the parameter list positions do not match one-to-one as the claim states. -/
theorem C1_counterexample :
    (((QueryBuilder.new "users" PrimaryKeyType.serial "id").whereRaw "x > $1"
        (some (JsVal.num 10))).whereMap [("a", JsVal.num 7)]).whereParams
      = [JsVal.num 10, JsVal.num 7] ∧
    (((QueryBuilder.new "users" PrimaryKeyType.serial "id").whereRaw "x > $1"
        (some (JsVal.num 10))).whereMap [("a", JsVal.num 7)]).whereConditions
      = ["x > $1", "a = $1"] ∧
    ¬ ("a = $1" = "a = $2") :=
  ⟨rfl, rfl, by decide⟩

/-- C1 (amended): for every sequence of object-based where() calls on a fresh
builder, the rendered WHERE state contains exactly one condition per field
key, in call order (joined with AND at render time); a null value renders an
IS NULL condition with no parameter, an array renders an IN condition with
one placeholder per element and the elements appended in order, and a scalar
renders an equality condition; the positional placeholders are exactly
$1..$n assigned left-to-right in the order the values were appended, matching
the parameter list positions one-to-one, and select/count/delete/first all
pass that parameter list.  (The amendment restricts the one-to-one
placeholder/position match to object-based conditions: a raw string fragment
appends its optional value without advancing the placeholder counter, so a
value-carrying raw fragment placed before an object condition breaks the
match, as the counterexample shows.) -/
theorem C1_where_object_rendering (t pk : String) (pkt : PrimaryKeyType) (calls : List Obj)
    (hkeys : ∀ es ∈ calls, ∀ p ∈ es, ∀ c ∈ p.1.data, ¬ c = '$') :
    let b := calls.foldl QueryBuilder.whereMap (QueryBuilder.new t pkt pk)
    b.whereConditions = expectedConds 1 calls.flatten ∧
    b.whereParams = expectedParams calls.flatten ∧
    b.whereConditions.length = calls.flatten.length ∧
    condsPh b.whereConditions = (List.range' 1 b.whereParams.length).map natToStr ∧
    (calls.flatten ≠ [] →
      b.buildWhereClause = "WHERE " ++ joinSep " AND " (expectedConds 1 calls.flatten)) ∧
    (b.selectStmt ["*"]).params = b.whereParams ∧
    b.countStmt.params = b.whereParams ∧
    b.deleteStmt.params = b.whereParams ∧
    ((b.limit 1).selectStmt ["*"]).params = b.whereParams := by
  intro b
  have hb : b = (QueryBuilder.new t pkt pk).whereMap calls.flatten :=
    foldl_whereMap_join calls (QueryBuilder.new t pkt pk)
  have hkeys' : ∀ p ∈ calls.flatten, ∀ c ∈ p.1.data, ¬ c = '$' := by
    intro p hp
    rcases List.mem_flatten.mp hp with ⟨es, hes, hpes⟩
    exact hkeys es hes p hpes
  have hmap := whereMap_eq calls.flatten (QueryBuilder.new t pkt pk)
  have hconds : b.whereConditions = expectedConds 1 calls.flatten := by
    rw [hb, hmap]
    simp [QueryBuilder.new]
  have hparams : b.whereParams = expectedParams calls.flatten := by
    rw [hb, hmap]
    simp [QueryBuilder.new]
  refine ⟨hconds, hparams, ?_, ?_, ?_, ?_, ?_, ?_, ?_⟩
  · rw [hconds, expectedConds_length]
  · rw [hconds, hparams, expectedConds_ph calls.flatten 1 hkeys']
  · intro hne
    rw [QueryBuilder.buildWhereClause, if_neg, hconds]
    rw [hconds]
    intro hemp
    have := expectedConds_length calls.flatten 1
    rw [hemp] at this
    exact hne (List.length_eq_zero.mp this.symm)
  · rfl
  · rfl
  · rfl
  · rfl

/-- C1 witness: two object-based where() calls (an IN condition with two
elements, then an IS NULL and an equality condition) on a fresh builder
render the expected conditions with placeholders $1..$3 and matching
parameter order. -/
theorem C1_witness :
    (∀ es ∈ ([[("a", JsVal.arr [JsVal.num 1, JsVal.num 2])],
              [("b", JsVal.null), ("c", JsVal.str "x")]] : List Obj),
      ∀ p ∈ es, ∀ c ∈ p.1.data, ¬ c = '$') ∧
    (([[("a", JsVal.arr [JsVal.num 1, JsVal.num 2])],
       [("b", JsVal.null), ("c", JsVal.str "x")]] : List Obj).foldl
        QueryBuilder.whereMap (QueryBuilder.new "users" PrimaryKeyType.serial "id")).whereConditions
      = ["a IN ($1, $2)", "b IS NULL", "c = $3"] :=
  ⟨by decide, by
    have h := (C1_where_object_rendering "users" "id" PrimaryKeyType.serial
      [[("a", JsVal.arr [JsVal.num 1, JsVal.num 2])],
       [("b", JsVal.null), ("c", JsVal.str "x")]] (by decide)).1
    rw [h]
    rfl⟩

theorem append_ne_empty_left (s t : String) (hs : s.data ≠ []) : ¬ (s ++ t) = "" := by
  intro h
  have hd := congrArg String.data h
  rw [data_append] at hd
  have hd2 : s.data ++ t.data = [] := hd
  exact hs (List.append_eq_nil.mp hd2).1

theorem buildWhereClause_ne_empty {qb : QueryBuilder} (h : qb.whereConditions ≠ []) :
    ¬ qb.buildWhereClause = "" := by
  rw [QueryBuilder.buildWhereClause, if_neg h]
  exact append_ne_empty_left "WHERE " _ (by decide)

/-- C3 counterexample: the mapper-level Model.delete with a present but empty
condition object does not return a numeric count as the claim states: the
empty object passes the options gate and adds no condition, so the
builder-level gate fails the call with the builder safety error. -/
theorem C3_counterexample :
    (ModelClass.delete ⟨"users", "id", PrimaryKeyType.serial⟩ (some [])
        (fun _ => ⟨[], some 1⟩)).1
      = Except.error "Delete operation requires a WHERE clause for safety" ∧
    ¬ ((Except.error "Delete operation requires a WHERE clause for safety" :
        Except String Nat) = Except.ok 1) :=
  ⟨rfl, by simp⟩

/-- C3 (amended): QueryBuilder.delete() fails with the builder safety error
exactly when no WHERE condition has accumulated (so after construction or
after only orderBy/limit/offset calls), and executes the DELETE returning the
affected-row count otherwise; mapper-level Model.delete fails when
options.where is absent, and returns a numeric count when options.where is a
non-empty condition object.  (The amendment adds non-emptiness: a present but
empty condition object still fails, at the builder gate, as the
counterexample shows.) -/
theorem C3_delete_requires_where (qb : QueryBuilder) (db : Db) (m : ModelClass) (w : Obj)
    (t pk c : String) (d : Option String) (pkt : PrimaryKeyType) (ln off : Int) :
    ((QueryBuilder.new t pkt pk).delete db
        = Except.error "Delete operation requires a WHERE clause for safety") ∧
    ((((QueryBuilder.new t pkt pk).orderBy c d).limit ln |>.offset off).delete db
        = Except.error "Delete operation requires a WHERE clause for safety") ∧
    (qb.whereConditions = [] → qb.delete db
        = Except.error "Delete operation requires a WHERE clause for safety") ∧
    (qb.whereConditions ≠ [] → qb.delete db = Except.ok ((db qb.deleteStmt).rowCount.getD 0)) ∧
    (ModelClass.delete m none db = (Except.error "Delete requires a WHERE clause", [])) ∧
    (w ≠ [] → (ModelClass.delete m (some w) db).1
        = Except.ok ((db (((m.query).whereMap w).deleteStmt)).rowCount.getD 0)) := by
  refine ⟨rfl, rfl, ?_, ?_, rfl, ?_⟩
  · intro h
    rw [QueryBuilder.delete, QueryBuilder.buildWhereClause, if_pos h]
    simp
  · intro h
    rw [QueryBuilder.delete, if_neg (buildWhereClause_ne_empty h)]
  · intro hw
    have hconds : ((m.query).whereMap w).whereConditions ≠ [] := by
      rw [whereMap_eq]
      simp [ModelClass.query, QueryBuilder.new]
      intro hemp
      have := expectedConds_length w 1
      rw [hemp] at this
      exact hw (List.length_eq_zero.mp this.symm)
    have hdel : ((m.query).whereMap w).delete db
        = Except.ok ((db (((m.query).whereMap w).deleteStmt)).rowCount.getD 0) := by
      rw [QueryBuilder.delete, if_neg (buildWhereClause_ne_empty hconds)]
    rw [ModelClass.delete, hdel]

/-- C3 witness: a one-condition object makes both the builder delete and the
mapper delete succeed with the oracle affected-row count, here 1. -/
theorem C3_witness :
    (([(("idx" : String), JsVal.num 3)] : Obj) ≠ []) ∧
    (ModelClass.delete ⟨"users", "id", PrimaryKeyType.serial⟩
        (some [("idx", JsVal.num 3)]) (fun _ => ⟨[], some 1⟩)).1 = Except.ok 1 :=
  ⟨by simp, by
    have h := ((C3_delete_requires_where (QueryBuilder.new "users" PrimaryKeyType.serial "id")
      (fun _ => ⟨[], some 1⟩) ⟨"users", "id", PrimaryKeyType.serial⟩ [("idx", JsVal.num 3)]
      "users" "id" "c" none PrimaryKeyType.serial 0 0).2.2.2.2.2) (by simp)
    rw [h]
    rfl⟩

theorem find?_eq_none_iff_keys {o : Obj} {k : String} :
    o.find? (fun p => p.1 = k) = none ↔ objGet o k = none := by
  rw [objGet]
  cases o.find? (fun p => p.1 = k) <;> simp

theorem objAssign_append_of_fresh : ∀ (src acc : Obj),
    (∀ p ∈ src, ¬ p.1 ∈ acc.map Prod.fst) → (src.map Prod.fst).Nodup →
    objAssign acc src = acc ++ src := by
  intro src
  induction src with
  | nil => intro acc _ _; simp [objAssign]
  | cons e es ih =>
    intro acc hfresh hnd
    obtain ⟨k, v⟩ := e
    have hstep : objAssign acc ((k, v) :: es) = objAssign (objSet acc k v) es := rfl
    have hknotin : ¬ k ∈ acc.map Prod.fst := hfresh (k, v) (by simp)
    have hset : objSet acc k v = acc ++ [(k, v)] := by
      rw [objSet, if_neg]
      rw [List.find?_eq_none.mpr]
      · simp
      · intro x hx
        simp only [decide_eq_true_eq]
        intro hxk
        exact hknotin (by
          rw [← hxk]
          exact List.mem_map_of_mem Prod.fst hx)
    have hnd' : (es.map Prod.fst).Nodup := by
      simp only [List.map_cons, List.nodup_cons] at hnd
      exact hnd.2
    have hknotes : ¬ k ∈ es.map Prod.fst := by
      simp only [List.map_cons, List.nodup_cons] at hnd
      exact hnd.1
    have hfresh' : ∀ p ∈ es, ¬ p.1 ∈ (acc ++ [(k, v)]).map Prod.fst := by
      intro p hp
      rw [List.map_append]
      intro hmem
      rcases List.mem_append.mp hmem with hm | hm
      · exact hfresh p (by simp [hp]) hm
      · simp at hm
        exact hknotes (by rw [← hm]; exact List.mem_map_of_mem Prod.fst hp)
    rw [hstep, hset, ih (acc ++ [(k, v)]) hfresh' hnd']
    simp

theorem materialize_nodup (r : Row) (h : (r.map Prod.fst).Nodup) : materialize r = r := by
  have := objAssign_append_of_fresh r [] (by simp) h
  simpa [materialize] using this

/-- C4: static Model.update fails with the mapper-level error and issues no
statement when options.where is absent, and when options.where is present it
applies the condition map to the builder, issues the update statement, and
returns the driver rows materialized as record instances (materialization is
the identity on rows with distinct column names). -/
theorem C4_update_gate (m : ModelClass) (data : Obj) (db : Db) (w : Obj) (r : Row) :
    ModelClass.update m data none db = (Except.error "Update requires a WHERE clause", []) ∧
    (ModelClass.update m data (some w) db).1
      = Except.ok (((db (((m.query).whereMap w).updateStmt data)).rows).map materialize) ∧
    (ModelClass.update m data (some w) db).2 = [((m.query).whereMap w).updateStmt data] ∧
    ((r.map Prod.fst).Nodup → materialize r = r) :=
  ⟨rfl, rfl, rfl, materialize_nodup r⟩

/-- C4 witness: with a one-row oracle, Model.update with a present condition
returns exactly that row as the materialized instance, and with where absent
it fails without issuing a statement. -/
theorem C4_witness :
    ((([("nm", JsVal.str "A")] : Row).map Prod.fst).Nodup) ∧
    (ModelClass.update ⟨"users", "id", PrimaryKeyType.serial⟩ [("nm", JsVal.str "B")]
        (some [("id", JsVal.num 1)]) (fun _ => ⟨[[("nm", JsVal.str "A")]], none⟩)).1
      = Except.ok [[("nm", JsVal.str "A")]] := by
  refine ⟨by simp, ?_⟩
  have h := C4_update_gate ⟨"users", "id", PrimaryKeyType.serial⟩ [("nm", JsVal.str "B")]
    (fun _ => ⟨[[("nm", JsVal.str "A")]], none⟩) [("id", JsVal.num 1)] [("nm", JsVal.str "A")]
  rw [h.2.1]
  have hm := h.2.2.2 (by simp)
  show Except.ok [materialize [("nm", JsVal.str "A")]] = _
  rw [hm]

/-- C5: an empty condition object defeats the mapper-level mass-update gate:
for every data map, Model.update with where set to the empty object succeeds,
adds no condition, and issues an UPDATE statement whose SQL carries no WHERE
clause (so it updates every row); the same empty object passed to
Model.delete still fails, because the builder-level delete gate checks the
accumulated condition list rather than the options argument. -/
theorem C5_empty_where_defeats_update_gate (m : ModelClass) (data : Obj) (db : Db) :
    (ModelClass.update m data (some []) db).1
      = Except.ok (((db ((m.query).updateStmt data)).rows).map materialize) ∧
    (ModelClass.update m data (some []) db).2 = [(m.query).updateStmt data] ∧
    ((m.query).updateStmt data).sql
      = "UPDATE " ++ m.tableName ++ " SET " ++ joinSep ", " (setParts 1 (data.map Prod.fst)) ∧
    ModelClass.delete m (some []) db
      = (Except.error "Delete operation requires a WHERE clause for safety", []) :=
  ⟨rfl, rfl, rfl, rfl⟩

/-- C6: the transactional helper acquires a connection, begins, and then
either commits and returns the unit outcome on normal completion, or rolls
back and re-raises the unit error on failure; in both outcomes the pinned
connection is released exactly once.  The unit of work is modelled by its
outcome and the statements it issues (it does not itself terminate the
transaction). -/
theorem C6_transaction_helper {α : Type} (cbOutcome : Except String α)
    (cbQueries : List String) :
    ((transaction cbOutcome cbQueries).2.count Ev.release = 1) ∧
    (∀ a, cbOutcome = Except.ok a →
      transaction cbOutcome cbQueries
        = (Except.ok a, [Ev.acquire, Ev.query "BEGIN"] ++ cbQueries.map Ev.query
            ++ [Ev.query "COMMIT", Ev.release])) ∧
    (∀ e, cbOutcome = Except.error e →
      transaction cbOutcome cbQueries
        = (Except.error e, [Ev.acquire, Ev.query "BEGIN"] ++ cbQueries.map Ev.query
            ++ [Ev.query "ROLLBACK", Ev.release])) := by
  have hmapcount : (cbQueries.map Ev.query).count Ev.release = 0 := by
    rw [List.count_eq_zero]
    intro hmem
    rcases List.mem_map.mp hmem with ⟨s, _, habs⟩
    exact Ev.noConfusion habs
  refine ⟨?_, ?_, ?_⟩
  · cases cbOutcome with
    | ok a =>
      show ((([Ev.acquire, Ev.query "BEGIN"] ++ cbQueries.map Ev.query)
          ++ [Ev.query "COMMIT", Ev.release]).count Ev.release) = 1
      rw [List.count_append, List.count_append, hmapcount]
      decide
    | error e =>
      show ((([Ev.acquire, Ev.query "BEGIN"] ++ cbQueries.map Ev.query)
          ++ [Ev.query "ROLLBACK", Ev.release]).count Ev.release) = 1
      rw [List.count_append, List.count_append, hmapcount]
      decide
  · intro a ha
    subst ha
    show (Except.ok a, ([Ev.acquire, Ev.query "BEGIN"] ++ cbQueries.map Ev.query)
        ++ [Ev.query "COMMIT", Ev.release]) = _
    rw [List.append_assoc]
  · intro e he
    subst he
    show (Except.error e, ([Ev.acquire, Ev.query "BEGIN"] ++ cbQueries.map Ev.query)
        ++ [Ev.query "ROLLBACK", Ev.release]) = _
    rw [List.append_assoc]

/-- C6 witness: a successful unit of work issuing one statement commits and
yields the expected trace with exactly one release. -/
theorem C6_witness :
    ((Except.ok 5 : Except String Nat) = Except.ok 5) ∧
    transaction (Except.ok 5 : Except String Nat) ["INSERT A"]
      = (Except.ok 5, [Ev.acquire, Ev.query "BEGIN"] ++ [("INSERT A" : String)].map Ev.query
          ++ [Ev.query "COMMIT", Ev.release]) :=
  ⟨rfl, (C6_transaction_helper (Except.ok 5) ["INSERT A"]).2.1 5 rfl⟩

/-- C7: the Transaction terminal transitions are one-shot: a second commit()
after a successful commit() fails with the already-committed error; rollback()
after rollback() silently succeeds with no statement and no release;
rollback() after commit() fails with the already-committed error. -/
theorem C7_transaction_one_shot :
    Transaction.commit Transaction.new
      = Except.ok (⟨true, false⟩, [Ev.query "COMMIT", Ev.release]) ∧
    Transaction.commit ⟨true, false⟩ = Except.error "Transaction already committed" ∧
    Transaction.rollback Transaction.new
      = Except.ok (⟨false, true⟩, [Ev.query "ROLLBACK", Ev.release]) ∧
    Transaction.rollback ⟨false, true⟩ = Except.ok (⟨false, true⟩, []) ∧
    Transaction.rollback ⟨true, false⟩ = Except.error "Transaction already committed" :=
  ⟨rfl, rfl, rfl, rfl, rfl⟩

/-- C10: Model.findAll discards a limit of 0 and an offset of 0 because its
option checks are truthiness tests: the assembled builder (and hence the
issued statement and the result) is identical to the one with the option
absent, so no LIMIT/OFFSET clause is rendered; nonzero limits and offsets are
forwarded unchanged; by contrast, calling the builder limit(0)/offset(0)
directly does render the LIMIT 0/OFFSET 0 clause. -/
theorem C10_findAll_zero_limit_offset (m : ModelClass) (w : Option Obj)
    (ob : Option OrderBySpec) (lim off : Option Int) (db : Db) (n : Int) (qb : QueryBuilder)
    (hn : ¬ n = 0) :
    m.findAllBuilder ⟨w, ob, some 0, off⟩ = m.findAllBuilder ⟨w, ob, none, off⟩ ∧
    m.findAll ⟨w, ob, some 0, off⟩ db = m.findAll ⟨w, ob, none, off⟩ db ∧
    m.findAllBuilder ⟨w, ob, lim, some 0⟩ = m.findAllBuilder ⟨w, ob, lim, none⟩ ∧
    m.findAll ⟨w, ob, lim, some 0⟩ db = m.findAll ⟨w, ob, lim, none⟩ db ∧
    (m.findAllBuilder ⟨w, ob, some n, off⟩).limitClause = "LIMIT " ++ intToStr n ∧
    (m.findAllBuilder ⟨w, ob, lim, some n⟩).offsetClause = "OFFSET " ++ intToStr n ∧
    (qb.limit 0).limitClause = "LIMIT 0" ∧
    (qb.offset 0).offsetClause = "OFFSET 0" ∧
    ((m.query).limit 0).selectSql ["*"] = ("SELECT * FROM " ++ m.tableName) ++ " LIMIT 0" := by
  have ht : truthy (JsVal.num n) = true := by
    simp [truthy, hn]
  refine ⟨rfl, rfl, rfl, rfl, ?_, ?_, rfl, rfl, ?_⟩
  · cases off with
    | none =>
      simp only [ModelClass.findAllBuilder, ht]
      rfl
    | some k =>
      simp only [ModelClass.findAllBuilder, ht]
      by_cases hk : truthy (JsVal.num k) = true
      · rw [hk]
        simp [QueryBuilder.offset, QueryBuilder.limit]
      · rw [Bool.not_eq_true] at hk
        rw [hk]
        simp [QueryBuilder.limit]
  · cases lim with
    | none =>
      simp only [ModelClass.findAllBuilder, ht]
      simp [QueryBuilder.offset]
    | some k =>
      simp only [ModelClass.findAllBuilder, ht]
      by_cases hk : truthy (JsVal.num k) = true
      · rw [hk]
        simp [QueryBuilder.offset]
      · rw [Bool.not_eq_true] at hk
        rw [hk]
        simp [QueryBuilder.offset]
  · show (("SELECT * FROM " ++ m.tableName) ++ " ") ++ ("LIMIT " ++ intToStr 0)
        = ("SELECT * FROM " ++ m.tableName) ++ " LIMIT 0"
    rw [String.append_assoc]
    rfl

/-- C10 witness: a nonzero limit of 10 is forwarded unchanged into the
rendered LIMIT clause. -/
theorem C10_witness :
    (¬ (10 : Int) = 0) ∧
    ((ModelClass.findAllBuilder ⟨"users", "id", PrimaryKeyType.serial⟩
        ⟨none, none, some 10, none⟩).limitClause = "LIMIT " ++ intToStr 10) :=
  ⟨by decide, (C10_findAll_zero_limit_offset ⟨"users", "id", PrimaryKeyType.serial⟩
      none none none none (fun _ => ⟨[], none⟩) 10
      (QueryBuilder.new "users" PrimaryKeyType.serial "id") (by decide)).2.2.2.2.1⟩

theorem extractPh_eq_nil_of_no_dollar {s : String} (h : ¬ '$' ∈ s.data) :
    extractPh s = [] :=
  extractPhL_nodollar s.data (fun _ hc he => h (he ▸ hc))

theorem renumber_ph (i : Nat) (s : String) :
    extractPh (renumber i s).1 = (List.range' i (extractPh s).length).map natToStr ∧
    (renumber i s).2 = i + (extractPh s).length := by
  have h := renumberL_spec s.data.length s.data (Nat.le_refl _) i
  exact ⟨h.1, h.2⟩

theorem updateWhereCondsAux_ph : ∀ (conds : List String) (idx : Nat),
    condsPh (updateWhereCondsAux idx conds).1
      = (List.range' idx (condsPh conds).length).map natToStr ∧
    (updateWhereCondsAux idx conds).2 = idx + (condsPh conds).length := by
  intro conds
  induction conds with
  | nil => intro idx; exact ⟨rfl, rfl⟩
  | cons cond conds ih =>
    intro idx
    by_cases hdol : '$' ∈ cond.data
    · have hstep : updateWhereCondsAux idx (cond :: conds)
          = ((renumber idx cond).1 :: (updateWhereCondsAux (renumber idx cond).2 conds).1,
             (updateWhereCondsAux (renumber idx cond).2 conds).2) := by
        simp [updateWhereCondsAux, hdol]
      obtain ⟨hr1, hr2⟩ := renumber_ph idx cond
      obtain ⟨hi1, hi2⟩ := ih (renumber idx cond).2
      rw [hstep]
      constructor
      · show extractPh (renumber idx cond).1
            ++ condsPh (updateWhereCondsAux (renumber idx cond).2 conds).1 = _
        rw [hr1, hi1, hr2, ← List.map_append, range'_append']
        show _ = (List.range' idx (extractPh cond ++ condsPh conds).length).map natToStr
        rw [List.length_append]
      · show (updateWhereCondsAux (renumber idx cond).2 conds).2 = _
        rw [hi2, hr2]
        show _ = idx + (extractPh cond ++ condsPh conds).length
        rw [List.length_append]
        omega
    · have hstep : updateWhereCondsAux idx (cond :: conds)
          = (cond :: (updateWhereCondsAux idx conds).1, (updateWhereCondsAux idx conds).2) := by
        simp [updateWhereCondsAux, hdol]
      have hnil : extractPh cond = [] := extractPh_eq_nil_of_no_dollar hdol
      obtain ⟨hi1, hi2⟩ := ih idx
      rw [hstep]
      constructor
      · show extractPh cond ++ condsPh (updateWhereCondsAux idx conds).1 = _
        rw [hnil, hi1]
        show _ = (List.range' idx (extractPh cond ++ condsPh conds).length).map natToStr
        rw [hnil]
        rfl
      · show (updateWhereCondsAux idx conds).2 = _
        rw [hi2]
        show _ = idx + (extractPh cond ++ condsPh conds).length
        rw [hnil]
        rfl

theorem setParts_ph : ∀ (cols : List String) (i : Nat),
    (∀ k ∈ cols, ∀ c ∈ k.data, ¬ c = '$') →
    condsPh (setParts i cols) = (List.range' i cols.length).map natToStr := by
  intro cols
  induction cols with
  | nil => intro i _; rfl
  | cons k cols ih =>
    intro i hk
    show extractPh (k ++ " = $" ++ natToStr i) ++ condsPh (setParts (i + 1) cols) = _
    rw [extractPh_cond_eq k i (hk k (by simp)), ih (i + 1) (fun a ha => hk a (by simp [ha]))]
    rfl

/-- C2: for every update(data) call, the issued parameter list is the SET
values followed by the accumulated WHERE parameters; the SET clause
placeholders are exactly $1..$N in column order; the renumbering pass rewrites
the placeholders of the accumulated WHERE conditions to continue at $N+1 in
left-to-right order; and the combined rendered placeholder sequence is exactly
$1..$(N+K), matching the combined parameter list positions one-to-one (under
the parameter-balance invariant that the accumulated conditions carry exactly
one placeholder per accumulated parameter, which every object-based where()
call preserves). -/
theorem C2_update_renumbering (qb : QueryBuilder) (data : Obj)
    (hcols : ∀ p ∈ data, ∀ c ∈ p.1.data, ¬ c = '$')
    (hbal : (condsPh qb.whereConditions).length = qb.whereParams.length) :
    (qb.updateStmt data).params = data.map Prod.snd ++ qb.whereParams ∧
    condsPh (setParts 1 (data.map Prod.fst)) = (List.range' 1 data.length).map natToStr ∧
    condsPh (updateWhereCondsAux (data.length + 1) qb.whereConditions).1
      = (List.range' (data.length + 1) qb.whereParams.length).map natToStr ∧
    condsPh (setParts 1 (data.map Prod.fst))
        ++ condsPh (updateWhereCondsAux (data.length + 1) qb.whereConditions).1
      = (List.range' 1 (qb.updateStmt data).params.length).map natToStr := by
  have hset : condsPh (setParts 1 (data.map Prod.fst))
      = (List.range' 1 data.length).map natToStr := by
    rw [setParts_ph (data.map Prod.fst) 1 (by
      intro k hkm
      rcases List.mem_map.mp hkm with ⟨p, hp, hpk⟩
      rw [← hpk]
      exact hcols p hp)]
    rw [List.length_map]
  have hwhere : condsPh (updateWhereCondsAux (data.length + 1) qb.whereConditions).1
      = (List.range' (data.length + 1) qb.whereParams.length).map natToStr := by
    rw [(updateWhereCondsAux_ph qb.whereConditions (data.length + 1)).1, hbal]
  refine ⟨rfl, hset, hwhere, ?_⟩
  rw [hset, hwhere, ← List.map_append]
  rw [show List.range' (data.length + 1) qb.whereParams.length
      = List.range' (1 + data.length) qb.whereParams.length from by rw [Nat.add_comm]]
  rw [range'_append']
  show _ = (List.range' 1 (data.map Prod.snd ++ qb.whereParams).length).map natToStr
  rw [List.length_append, List.length_map]

/-- C2 witness: a builder with conditions a = $1 and b IN ($2, $3) (three
accumulated parameters) updated with one SET column renumbers the WHERE
placeholders to $2..$4 and passes the SET value followed by the three WHERE
values. -/
theorem C2_witness :
    ((condsPh (((QueryBuilder.new "t" PrimaryKeyType.serial "id").whereMap
        [("a", JsVal.num 1), ("b", JsVal.arr [JsVal.num 2, JsVal.num 3])]).whereConditions)).length
      = (((QueryBuilder.new "t" PrimaryKeyType.serial "id").whereMap
        [("a", JsVal.num 1), ("b", JsVal.arr [JsVal.num 2, JsVal.num 3])]).whereParams).length) ∧
    ((((QueryBuilder.new "t" PrimaryKeyType.serial "id").whereMap
        [("a", JsVal.num 1), ("b", JsVal.arr [JsVal.num 2, JsVal.num 3])]).updateStmt
        [("x", JsVal.num 9)]).params
      = [JsVal.num 9, JsVal.num 1, JsVal.num 2, JsVal.num 3]) :=
  ⟨rfl, by
    have h := (C2_update_renumbering ((QueryBuilder.new "t" PrimaryKeyType.serial "id").whereMap
      [("a", JsVal.num 1), ("b", JsVal.arr [JsVal.num 2, JsVal.num 3])]) [("x", JsVal.num 9)]
      (by decide) rfl).1
    rw [h]
    rfl⟩

theorem find?_cons_ne {e : String × JsVal} {o : Obj} {k : String} (he : ¬ e.1 = k) :
    (e :: o).find? (fun p => p.1 = k) = o.find? (fun p => p.1 = k) := by
  simp [List.find?_cons, he]

theorem find?_cons_self {e : String × JsVal} {o : Obj} {k : String} (he : e.1 = k) :
    (e :: o).find? (fun p => p.1 = k) = some e := by
  simp [List.find?_cons, he]

theorem objGet_cons_ne {e : String × JsVal} {o : Obj} {k : String} (he : ¬ e.1 = k) :
    objGet (e :: o) k = objGet o k := by
  rw [objGet, objGet, find?_cons_ne he]

theorem objSet_cons_ne (e : String × JsVal) (o : Obj) (k : String) (v : JsVal)
    (he : ¬ e.1 = k) : objSet (e :: o) k v = e :: objSet o k v := by
  rw [objSet, objSet, find?_cons_ne he]
  rcases hf : o.find? (fun p => p.1 = k) with _ | q <;> rw [hf] <;> simp [he]

theorem objGet_objSet_self : ∀ (o : Obj) (k : String) (v : JsVal),
    objGet (objSet o k v) k = some v := by
  intro o
  induction o with
  | nil =>
    intro k v
    simp [objSet, objGet, List.find?]
  | cons e o ih =>
    intro k v
    by_cases he : e.1 = k
    · rw [objSet, if_pos (by rw [find?_cons_self he]; simp)]
      rw [List.map_cons, if_pos he]
      rw [objGet, find?_cons_self (by rfl)]
      rfl
    · rw [objSet_cons_ne e o k v he, objGet_cons_ne he]
      exact ih k v

theorem find?_map_setK {k k' : String} {v : JsVal} (hne : ¬ k = k') : ∀ o : Obj,
    (o.map (fun p => if p.1 = k then (k, v) else p)).find? (fun p => p.1 = k')
      = o.find? (fun p => p.1 = k') := by
  intro o
  induction o with
  | nil => rfl
  | cons e o ih =>
    rw [List.map_cons]
    by_cases he : e.1 = k
    · rw [if_pos he]
      rw [find?_cons_ne (by simpa using hne), find?_cons_ne (by rw [he]; simpa using hne)]
      exact ih
    · rw [if_neg he]
      by_cases he' : e.1 = k'
      · rw [find?_cons_self he', find?_cons_self he']
      · rw [find?_cons_ne he', find?_cons_ne he']
        exact ih

theorem objGet_objSet_ne {o : Obj} {k k' : String} {v : JsVal} (hne : ¬ k' = k) :
    objGet (objSet o k v) k' = objGet o k' := by
  rw [objSet]
  rcases hf : o.find? (fun p => p.1 = k) with _ | q
  · rw [if_neg (by rw [hf]; simp)]
    rw [objGet, List.find?_append]
    have hone : ([(k, v)] : Obj).find? (fun p => p.1 = k') = none := by
      rw [find?_cons_ne (fun h => hne h.symm)]
      rfl
    rw [hone, objGet]
    cases o.find? (fun p => p.1 = k') <;> rfl
  · rw [if_pos (by rw [hf]; simp)]
    rw [objGet, objGet, find?_map_setK (fun h => hne h.symm)]

theorem objAssign_preserve : ∀ (src o : Obj) (k : String),
    (∀ p ∈ src, ¬ p.1 = k) → objGet (objAssign o src) k = objGet o k := by
  intro src
  induction src with
  | nil => intro o k _; rfl
  | cons e es ih =>
    intro o k h
    have hstep : objAssign o (e :: es) = objAssign (objSet o e.1 e.2) es := rfl
    rw [hstep, ih (objSet o e.1 e.2) k (fun p hp => h p (by simp [hp]))]
    exact objGet_objSet_ne (fun hk => h e (by simp) hk.symm)

theorem objGet_objAssign_of_mem : ∀ (src o : Obj) (k : String) (v : JsVal),
    (src.map Prod.fst).Nodup → objGet src k = some v →
    objGet (objAssign o src) k = some v := by
  intro src
  induction src with
  | nil =>
    intro o k v _ hget
    exact absurd hget (by simp [objGet, List.find?])
  | cons e es ih =>
    intro o k v hnd hget
    obtain ⟨k₁, v₁⟩ := e
    have hstep : objAssign o ((k₁, v₁) :: es) = objAssign (objSet o k₁ v₁) es := rfl
    by_cases hk : k₁ = k
    · subst hk
      have hv : v₁ = v := by
        rw [objGet, find?_cons_self (by rfl)] at hget
        simpa using hget
      subst hv
      have hknotes : ∀ p ∈ es, ¬ p.1 = k₁ := by
        simp only [List.map_cons, List.nodup_cons] at hnd
        intro p hp hpk
        exact hnd.1 (by rw [← hpk]; exact List.mem_map_of_mem Prod.fst hp)
      rw [hstep, objAssign_preserve es (objSet o k₁ v₁) k₁ hknotes]
      exact objGet_objSet_self o k₁ v₁
    · have hget' : objGet es k = some v := by
        rw [objGet_cons_ne hk] at hget
        exact hget
      have hnd' : (es.map Prod.fst).Nodup := by
        simp only [List.map_cons, List.nodup_cons] at hnd
        exact hnd.2
      rw [hstep]
      exact ih (objSet o k₁ v₁) k v hnd' hget'

/-- C8 counterexample: under the uuid strategy, a caller-supplied falsy
primary-key value (here the empty string) is not used in the INSERT: the
truthiness check treats it like an absent key, and the generated identifier
replaces it, contradicting the claim that a supplied explicit value is always
persisted unchanged. -/
theorem C8_counterexample :
    (QueryBuilder.new "products" PrimaryKeyType.uuid "id").insertData
        [("id", JsVal.str ""), ("name", JsVal.str "Laptop")] "u-1"
      = [("id", JsVal.str "u-1"), ("name", JsVal.str "Laptop")] ∧
    ¬ (JsVal.str "u-1" = JsVal.str "") :=
  ⟨rfl, by simp⟩

/-- C8 (amended): under the uuid strategy, whenever the primary-key field of
data is falsy (absent, or present with a falsy value such as an empty string,
0 or false) the generated identifier is injected under the primary-key name,
so the inserted primary key is the generator output and every other column is
unchanged; in the absent case the key is appended as a new column, placed in
the parameter list after the data values, while a present falsy value is
replaced in place, preserving column order; when the caller supplies a truthy
primary-key value the data is used entirely unchanged; under the serial
strategy no key is ever injected.  (The amendment replaces absent/supplied by
falsy/truthy: a supplied falsy value, such as an empty string, is replaced by
a generated identifier, as the counterexample shows.) -/
theorem C8_insert_uuid_strategy (qb : QueryBuilder) (data : Obj) (uuid : String) :
    (qb.primaryKeyType = PrimaryKeyType.uuid → objGet data qb.primaryKey = none →
      qb.insertData data uuid = data ++ [(qb.primaryKey, JsVal.str uuid)] ∧
      objGet (qb.insertData data uuid) qb.primaryKey = some (JsVal.str uuid) ∧
      (qb.insertStmt data uuid).params = data.map Prod.snd ++ [JsVal.str uuid]) ∧
    (qb.primaryKeyType = PrimaryKeyType.uuid → truthyOpt (objGet data qb.primaryKey) = true →
      qb.insertData data uuid = data) ∧
    (qb.primaryKeyType = PrimaryKeyType.serial → qb.insertData data uuid = data) ∧
    (qb.primaryKeyType = PrimaryKeyType.uuid →
      truthyOpt (objGet data qb.primaryKey) = false →
      qb.insertData data uuid = objSet data qb.primaryKey (JsVal.str uuid) ∧
      objGet (qb.insertData data uuid) qb.primaryKey = some (JsVal.str uuid) ∧
      (∀ k, ¬ k = qb.primaryKey → objGet (qb.insertData data uuid) k = objGet data k)) ∧
    (∀ v, qb.primaryKeyType = PrimaryKeyType.uuid → objGet data qb.primaryKey = some v →
      truthy v = false →
      qb.insertData data uuid
        = data.map (fun p =>
            if p.1 = qb.primaryKey then (qb.primaryKey, JsVal.str uuid) else p)) := by
  refine ⟨?_, ?_, ?_, ?_, ?_⟩
  · intro h1 h2
    have hfind : data.find? (fun p => p.1 = qb.primaryKey) = none :=
      find?_eq_none_iff_keys.mpr h2
    have hins : qb.insertData data uuid = data ++ [(qb.primaryKey, JsVal.str uuid)] := by
      rw [QueryBuilder.insertData, if_pos ⟨h1, by rw [h2]; rfl⟩, objSet, if_neg (by
        rw [hfind]
        simp)]
    refine ⟨hins, ?_, ?_⟩
    · rw [hins, objGet, List.find?_append, hfind]
      simp
    · show ((qb.insertData data uuid).map Prod.snd) = _
      rw [hins]
      simp
  · intro _ h2
    rw [QueryBuilder.insertData, if_neg]
    rintro ⟨_, hf⟩
    rw [h2] at hf
    exact Bool.noConfusion hf
  · intro h1
    rw [QueryBuilder.insertData, if_neg]
    rintro ⟨hu, _⟩
    rw [h1] at hu
    exact PrimaryKeyType.noConfusion hu
  · intro h1 h2
    have hins : qb.insertData data uuid = objSet data qb.primaryKey (JsVal.str uuid) := by
      rw [QueryBuilder.insertData, if_pos ⟨h1, h2⟩]
    refine ⟨hins, ?_, ?_⟩
    · rw [hins]
      exact objGet_objSet_self data qb.primaryKey (JsVal.str uuid)
    · intro k hk
      rw [hins]
      exact objGet_objSet_ne hk
  · intro v h1 hsome htv
    have h2 : truthyOpt (objGet data qb.primaryKey) = false := by
      rw [hsome]
      exact htv
    have hfind : (data.find? (fun p => p.1 = qb.primaryKey)).isSome = true := by
      rcases hf : data.find? (fun p => p.1 = qb.primaryKey) with _ | q
      · rw [objGet, hf] at hsome
        simp at hsome
      · rw [hf]
        rfl
    rw [QueryBuilder.insertData, if_pos ⟨h1, h2⟩, objSet, if_pos hfind]

/-- C8 witness: a uuid-strategy insert without a supplied primary key appends
the generated identifier as the id column, and one with a supplied falsy
primary key (0) carries the generated identifier under the id key with the
other column unchanged. -/
theorem C8_witness :
    ((QueryBuilder.new "products" PrimaryKeyType.uuid "id").primaryKeyType
        = PrimaryKeyType.uuid) ∧
    (objGet [("name", JsVal.str "Laptop")]
        (QueryBuilder.new "products" PrimaryKeyType.uuid "id").primaryKey = none) ∧
    ((QueryBuilder.new "products" PrimaryKeyType.uuid "id").insertData
        [("name", JsVal.str "Laptop")] "u-1"
      = [("name", JsVal.str "Laptop")] ++ [("id", JsVal.str "u-1")]) ∧
    (truthyOpt (objGet [("id", JsVal.num 0), ("name", JsVal.str "Laptop")]
        (QueryBuilder.new "products" PrimaryKeyType.uuid "id").primaryKey) = false) ∧
    (objGet ((QueryBuilder.new "products" PrimaryKeyType.uuid "id").insertData
        [("id", JsVal.num 0), ("name", JsVal.str "Laptop")] "u-1")
        (QueryBuilder.new "products" PrimaryKeyType.uuid "id").primaryKey
      = some (JsVal.str "u-1")) :=
  ⟨rfl, rfl,
    ((C8_insert_uuid_strategy (QueryBuilder.new "products" PrimaryKeyType.uuid "id")
      [("name", JsVal.str "Laptop")] "u-1").1 rfl rfl).1,
    rfl,
    (((C8_insert_uuid_strategy (QueryBuilder.new "products" PrimaryKeyType.uuid "id")
      [("id", JsVal.num 0), ("name", JsVal.str "Laptop")] "u-1").2.2.2.1 rfl rfl).2.1)⟩

/-- C9 counterexample: a record whose primary-key field is present with value
0 contradicts the claimed dispatch: save() issues an INSERT (not an update
keyed on the primary key), and that INSERT omits the id column even though id
is an own data field, because the dispatch tests truthiness of the field and
the SET/insert data always excludes the primary-key key. -/
theorem C9_counterexample :
    objGet [("id", JsVal.num 0), ("name", JsVal.str "Bob")] "id" = some (JsVal.num 0) ∧
    (ModelClass.save ⟨"users", "id", PrimaryKeyType.serial⟩
        [("id", JsVal.num 0), ("name", JsVal.str "Bob")] "u" (fun _ => ⟨[], none⟩)).2
      = [⟨"INSERT INTO users (name) VALUES ($1) RETURNING *", [JsVal.str "Bob"]⟩] ∧
    ¬ ("INSERT INTO users (name) VALUES ($1) RETURNING *"
        = "INSERT INTO users (id, name) VALUES ($1, $2) RETURNING *") :=
  ⟨rfl, rfl, by decide⟩

/-- C9 (amended): save() dispatches on the truthiness of the primary-key
field, with the SET/insert data always the own data fields other than the
primary-key field: when the primary-key field is truthy, save issues exactly
one UPDATE keyed on that value, and (since the rendered UPDATE has no
RETURNING clause, the driver returns no rows) the instance, including its
primary key, is left unchanged; when the primary-key field is absent or
falsy, save issues exactly one INSERT of the remaining fields and copies
every column of the returned row back onto the instance via Object.assign,
which populates any column present in the returned row, in particular the
primary key. -/
theorem C9_save_dispatch (m : ModelClass) (inst : Row) (uuid : String) (db : Db) :
    (∀ v, objGet inst m.primaryKey = some v → truthy v = true →
      (m.save inst uuid db).2
        = [((m.query).whereMap [(m.primaryKey, v)]).updateStmt
            (inst.filter (fun p => ¬ p.1 = m.primaryKey))] ∧
      ((db (((m.query).whereMap [(m.primaryKey, v)]).updateStmt
            (inst.filter (fun p => ¬ p.1 = m.primaryKey)))).rows = [] →
        (m.save inst uuid db).1 = inst)) ∧
    (truthyOpt (objGet inst m.primaryKey) = false →
      (m.save inst uuid db).2
        = [(m.query).insertStmt (inst.filter (fun p => ¬ p.1 = m.primaryKey)) uuid] ∧
      (∀ r rest,
        (db ((m.query).insertStmt (inst.filter (fun p => ¬ p.1 = m.primaryKey)) uuid)).rows
          = r :: rest → (m.save inst uuid db).1 = objAssign inst r)) ∧
    (∀ (r : Row) (k : String) (v : JsVal), (r.map Prod.fst).Nodup → objGet r k = some v →
      objGet (objAssign inst r) k = some v) := by
  refine ⟨?_, ?_, fun r k v hnd hget => objGet_objAssign_of_mem r inst k v hnd hget⟩
  · intro v hv htv
    have hto : truthyOpt (objGet inst m.primaryKey) = true := by
      rw [hv]
      exact htv
    have hpkv : (objGet inst m.primaryKey).getD JsVal.null = v := by
      rw [hv]
      rfl
    constructor
    · simp only [ModelClass.save]
      rw [if_pos hto, hpkv]
    · intro hrows
      simp only [ModelClass.save]
      rw [if_pos hto, hpkv]
      show (match (db (((m.query).whereMap [(m.primaryKey, v)]).updateStmt
          (inst.filter (fun p => ¬ p.1 = m.primaryKey)))).rows with
        | [] => inst
        | r :: _ => objAssign inst r) = inst
      rw [hrows]
  · intro hto
    constructor
    · simp only [ModelClass.save]
      rw [if_neg (by rw [hto]; exact Bool.false_ne_true)]
    · intro r rest hrows
      simp only [ModelClass.save]
      rw [if_neg (by rw [hto]; exact Bool.false_ne_true)]
      show (match ((db ((m.query).insertStmt
          (inst.filter (fun p => ¬ p.1 = m.primaryKey)) uuid)).rows).head? with
        | none => inst
        | some r => objAssign inst r) = objAssign inst r
      rw [hrows]
      rfl

/-- C9 witness: a record with truthy primary key 5 dispatches to the update
branch and, with the driver returning no rows, the instance including its
primary key is unchanged. -/
theorem C9_witness :
    (objGet [("id", JsVal.num 5), ("name", JsVal.str "A")] "id" = some (JsVal.num 5)) ∧
    (truthy (JsVal.num 5) = true) ∧
    ((ModelClass.save ⟨"users", "id", PrimaryKeyType.serial⟩
        [("id", JsVal.num 5), ("name", JsVal.str "A")] "u" (fun _ => ⟨[], none⟩)).1
      = [("id", JsVal.num 5), ("name", JsVal.str "A")]) :=
  ⟨rfl, rfl, ((C9_save_dispatch ⟨"users", "id", PrimaryKeyType.serial⟩
      [("id", JsVal.num 5), ("name", JsVal.str "A")] "u" (fun _ => ⟨[], none⟩)).1
      (JsVal.num 5) rfl rfl).2 rfl⟩

end Tolcan
